import Mathlib

/-!
Shallow embedding of the network-intel aggregation core (`src/lib/network-intel.ts`,
referenced here from `src/unnamed/part_000`, plus the response assembly of
`src/app/api/network-intel/route.ts`).

Modelling conventions:
* JavaScript strings are embedded as `List Char` (`Str`).  JS `trim`,
  `toLowerCase`, `toUpperCase`, `split` are modelled on char lists; the case
  maps are the ASCII maps (the placeholder table and country codes the code
  compares against are ASCII or caseless, so this agrees with JS on every
  comparison the code performs).
* JS numbers are embedded as `JSNum`: a finite rational, `inf`, `ninf` or
  `nan`.  `Number(string)` is modelled by the ECMAScript StringNumericLiteral
  grammar with exact rational values; magnitudes at or beyond the IEEE-754
  round-to-infinity boundary `(2 - 2^-53)·2^1023` become infinities, so
  finiteness agrees with JS.
* A TS field of type `T | null` is `Option _`; in `Partial<IntelData>` the
  code treats an absent (`undefined`) field and `null` identically on every
  path, so both are `none`.
-/

set_option maxRecDepth 40000

/-- JavaScript strings, embedded as lists of characters. -/
abbrev Str := List Char

/-- The characters JS `String.prototype.trim` strips (ECMAScript WhiteSpace
and LineTerminator code points). -/
def isJsWsChar (c : Char) : Bool :=
  c.toNat = 9 || c.toNat = 10 || c.toNat = 11 || c.toNat = 12 ||
  c.toNat = 13 || c.toNat = 32 || c.toNat = 0xA0 || c.toNat = 0x1680 ||
  (0x2000 ≤ c.toNat && c.toNat ≤ 0x200A) || c.toNat = 0x2028 ||
  c.toNat = 0x2029 || c.toNat = 0x202F || c.toNat = 0x205F ||
  c.toNat = 0x3000 || c.toNat = 0xFEFF

/-- JS `value.trim()`: strip leading and trailing whitespace. -/
def jsTrim (s : Str) : Str :=
  List.rdropWhile isJsWsChar (List.dropWhile isJsWsChar s)

/-- JS `\d` / `[0-9]` digit test (ASCII only, as in JS regexps). -/
def isDigitChar (c : Char) : Bool :=
  48 ≤ c.toNat && c.toNat ≤ 57

/-- ASCII lower-casing of one character (JS `toLowerCase` restricted to the
code points the program ever compares). -/
def lowerChar (c : Char) : Char :=
  if 65 ≤ c.toNat ∧ c.toNat ≤ 90 then Char.ofNat (c.toNat + 32) else c

/-- ASCII upper-casing of one character. -/
def upperChar (c : Char) : Char :=
  if 97 ≤ c.toNat ∧ c.toNat ≤ 122 then Char.ofNat (c.toNat - 32) else c

/-- JS `s.toLowerCase()`. -/
def toLowerStr (s : Str) : Str := s.map lowerChar

/-- JS `s.toUpperCase()`. -/
def toUpperStr (s : Str) : Str := s.map upperChar

/-- JS `s.split(sep)` for a single-character separator: all occurrences
split, empty pieces kept, `"".split(sep) = [""]`. -/
def splitOnChar (sep : Char) : Str → List Str
  | [] => [[]]
  | c :: rest =>
    match splitOnChar sep rest with
    | [] => if c = sep then [[], []] else [[c]]
    | h :: t => if c = sep then [] :: h :: t else (c :: h) :: t

/-- JS number values: finite (exact rational in this model), the two
infinities, or NaN. -/
inductive JSNum where
  | fin (q : ℚ)
  | inf
  | ninf
  | nan
deriving DecidableEq, Repr

/-- JS `Number.isFinite`. -/
def JSNum.isFinite : JSNum → Bool
  | .fin _ => true
  | _ => false

/-- JS `<=` on numbers (NaN compares false with everything). -/
def jsLeNum (a b : JSNum) : Bool :=
  match a, b with
  | .nan, _ => false
  | _, .nan => false
  | .fin x, .fin y => x ≤ y
  | .ninf, _ => true
  | _, .inf => true
  | .inf, _ => false
  | _, .ninf => false

/-- Value of a digit string, most significant first. -/
def digitsVal (d : Str) : ℕ :=
  d.foldl (fun a c => a * 10 + (c.toNat - 48)) 0

/-- Leading digit run of a string, and the rest. -/
def decDigits (s : Str) : Str × Str :=
  (s.takeWhile isDigitChar, s.dropWhile isDigitChar)

/-- Exact rational value of a decimal literal with integer digits `ip`,
fraction digits `fp` and exponent `e` (built with core `mkRat` so that kernel
evaluation is structural). -/
def decValue (ip fp : Str) (e : ℤ) : ℚ :=
  let m : ℕ := digitsVal ip * Nat.pow 10 fp.length + digitsVal fp
  if 0 ≤ e then mkRat (Int.ofNat (m * Nat.pow 10 e.toNat)) (Nat.pow 10 fp.length)
  else mkRat (Int.ofNat m) (Nat.pow 10 fp.length * Nat.pow 10 (-e).toNat)

/-- ExponentPart of the StrDecimalLiteral grammar; `none` when the remaining
characters are not a valid (possibly empty) exponent suffix. -/
def parseExponent (s : Str) : Option ℤ :=
  match s with
  | [] => some 0
  | c :: rest =>
    if c = 'e' ∨ c = 'E' then
      match rest with
      | '+' :: ds =>
        if ds ≠ [] ∧ ds.all isDigitChar then some (digitsVal ds) else none
      | '-' :: ds =>
        if ds ≠ [] ∧ ds.all isDigitChar then some (Int.negOfNat (digitsVal ds)) else none
      | ds =>
        if ds ≠ [] ∧ ds.all isDigitChar then some (digitsVal ds) else none
    else none

/-- StrUnsignedDecimalLiteral (without the `Infinity` production): digits,
optional fraction, optional exponent. -/
def parseUnsignedDecimal (s : Str) : Option ℚ :=
  let ip := (decDigits s).1
  match (decDigits s).2 with
  | '.' :: r2 =>
    let fp := (decDigits r2).1
    if ip = [] ∧ fp = [] then none
    else (parseExponent (decDigits r2).2).map (decValue ip fp)
  | r1 =>
    if ip = [] then none
    else (parseExponent r1).map (decValue ip [])

/-- Hex digit test for the `0x` literal form. -/
def isHexDigitChar (c : Char) : Bool :=
  isDigitChar c || (97 ≤ c.toNat && c.toNat ≤ 102) || (65 ≤ c.toNat && c.toNat ≤ 70)

/-- Value of one hex digit. -/
def hexDigitVal (c : Char) : ℕ :=
  if c.toNat ≤ 57 then c.toNat - 48
  else if 97 ≤ c.toNat then c.toNat - 87
  else c.toNat - 55

/-- Fold a digit string in a given radix. -/
def radixVal (r : ℕ) (dv : Char → ℕ) (d : Str) : ℕ :=
  d.foldl (fun a c => a * r + dv c) 0

/-- NonDecimalIntegerLiteral: `0x`/`0o`/`0b` forms (sign not allowed). -/
def parseNonDecimalInt (s : Str) : Option ℚ :=
  match s with
  | c :: x :: ds =>
    if c = '0' then
      if (x = 'x' ∨ x = 'X') ∧ ds ≠ [] ∧ ds.all isHexDigitChar then
        some (mkRat (Int.ofNat (radixVal 16 hexDigitVal ds)) 1)
      else if (x = 'o' ∨ x = 'O') ∧ ds ≠ [] ∧
          ds.all (fun c2 => 48 ≤ c2.toNat && c2.toNat ≤ 55) then
        some (mkRat (Int.ofNat (radixVal 8 (fun c2 => c2.toNat - 48) ds)) 1)
      else if (x = 'b' ∨ x = 'B') ∧ ds ≠ [] ∧
          ds.all (fun c2 => c2.toNat = 48 || c2.toNat = 49) then
        some (mkRat (Int.ofNat (radixVal 2 (fun c2 => c2.toNat - 48) ds)) 1)
      else none
    else none
  | _ => none

/-- Magnitudes at or beyond this bound round to an IEEE-754 infinity:
`(2 - 2^-53)·2^1023`. -/
def DBL_OVERFLOW : ℚ := mkRat (Int.ofNat (Nat.pow 2 1024 - Nat.pow 2 970)) 1

/-- Classify an exact rational result as a finite JS number or an infinity. -/
def finOrInf (q : ℚ) : JSNum :=
  if DBL_OVERFLOW ≤ q then .inf
  else if q ≤ Rat.neg DBL_OVERFLOW then .ninf
  else .fin q

/-- Signed tail of the numeric grammar: `Infinity` or a decimal literal. -/
def parseSignedTail (r : Str) (neg : Bool) : JSNum :=
  if r = ("Infinity".data) then (if neg then .ninf else .inf)
  else
    match parseUnsignedDecimal r with
    | some q => finOrInf (if neg then Rat.neg q else q)
    | none => .nan

/-- JS `Number(string)`: trim, empty means `0`, then the
StringNumericLiteral grammar; anything else is NaN. -/
def jsNumberOfString (s : Str) : JSNum :=
  match jsTrim s with
  | [] => .fin 0
  | c :: r =>
    if c = '+' then parseSignedTail r false
    else if c = '-' then parseSignedTail r true
    else
      match parseNonDecimalInt (c :: r) with
      | some q => finOrInf q
      | none => parseSignedTail (c :: r) false

/-- The placeholder strings `GENERIC_TEXT_VALUES` of the source (the last is
the Persian word for "unspecified"). -/
def GENERIC_TEXT_VALUES : List Str :=
  ["unknown".data, "n/a".data, "na".data, "none".data, "null".data,
   "undefined".data, "-".data, "نامشخص".data]

/-- The `COUNTRY_CODE_TO_NAME` table of the source. -/
def COUNTRY_CODE_TO_NAME : List (Str × Str) :=
  [("IR".data, "Iran".data), ("US".data, "United States".data),
   ("GB".data, "United Kingdom".data), ("DE".data, "Germany".data),
   ("FR".data, "France".data), ("TR".data, "Turkey".data),
   ("AE".data, "United Arab Emirates".data), ("IQ".data, "Iraq".data),
   ("RU".data, "Russia".data), ("NL".data, "Netherlands".data),
   ("CA".data, "Canada".data), ("AU".data, "Australia".data),
   ("JP".data, "Japan".data), ("CN".data, "China".data),
   ("IN".data, "India".data)]

/-- JS truthiness of a `string | null | undefined` value: `null`, `undefined`
and `""` are falsy. -/
def jsTruthy (v : Option Str) : Bool :=
  match v with
  | none => false
  | some s => !s.isEmpty

/-- The `IntelData` record of the source. -/
@[ext]
structure IntelData where
  ipv4 : Option Str
  ipv6 : Option Str
  isp : Option Str
  city : Option Str
  country : Option Str
  lat : Option JSNum
  lon : Option JSNum
deriving DecidableEq, Repr

/-- The `EMPTY_INTEL` constant of the source. -/
def EMPTY_INTEL : IntelData :=
  ⟨none, none, none, none, none, none, none⟩

/-- `Partial<IntelData>`: every field absent by default.  The merge code
treats `undefined` and `null` identically on every field (falsiness tests,
`?? null`, optional chaining), so both are `none`. -/
structure PartialIntel where
  ipv4 : Option Str := none
  ipv6 : Option Str := none
  isp : Option Str := none
  city : Option Str := none
  country : Option Str := none
  lat : Option JSNum := none
  lon : Option JSNum := none
deriving DecidableEq, Repr

/-- `parseCoordinate(value?: number | string | null)` of the source: numbers
pass through, strings go through `Number(...)`, and only finite results
survive. -/
def parseCoordinate (value : Option (Sum JSNum Str)) : Option JSNum :=
  match value with
  | none => none
  | some (Sum.inl n) => if n.isFinite then some n else none
  | some (Sum.inr s) =>
    let parsed := jsNumberOfString s
    if parsed.isFinite then some parsed else none

/-- `isValidIPv4` of the source: exactly 4 dot-separated parts, each matching
`/^\d+$/` with numeric value in `[0, 255]`. -/
def isValidIPv4 (s : Str) : Bool :=
  let parts := splitOnChar '.' s
  decide (parts.length = 4) &&
  parts.all fun part =>
    !part.isEmpty && part.all isDigitChar &&
    (jsLeNum (.fin 0) (jsNumberOfString part) &&
     jsLeNum (jsNumberOfString part) (.fin 255))

/-- JS `s.includes(pat)`: substring occurrence test. -/
def strHasInfix (pat : Str) : Str → Bool
  | [] => pat.isEmpty
  | c :: rest => List.isPrefixOf pat (c :: rest) || strHasInfix pat rest

/-- `isValidIPv6` of the source: contains a colon, only hex digits and
colons, no `:::`, and at most 8 colon-separated groups. -/
def isValidIPv6 (s : Str) : Bool :=
  s.contains ':' &&
  (!s.isEmpty && s.all fun c => isHexDigitChar c || c = ':') &&
  !(strHasInfix (':' :: ':' :: ':' :: []) s) &&
  (splitOnChar ':' s).length ≤ 8

/-- Address families. -/
inductive IpFamily where
  | v4
  | v6
deriving DecidableEq, Repr

/-- `detectIpFamily` of the source. -/
def detectIpFamily (value : Option Str) : Option IpFamily :=
  match value with
  | none => none
  | some s =>
    if s.isEmpty then none
    else
      let ip := jsTrim s
      if ip.isEmpty then none
      else if isValidIPv4 ip then some .v4
      else if isValidIPv6 ip then some .v6
      else none

/-- `isMeaningfulText` of the source: non-falsy, non-blank after trim, and
not a placeholder (case-insensitively). -/
def isMeaningfulText (v : Option Str) : Bool :=
  match v with
  | none => false
  | some s =>
    if s.isEmpty then false
    else
      let trimmed := jsTrim s
      if trimmed.isEmpty then false
      else !(GENERIC_TEXT_VALUES.contains (toLowerStr trimmed))

/-- `normalizeCountry` of the source: two-letter codes are looked up in the
table (falling back to the uppercased code), everything else passes through
trimmed. -/
def normalizeCountry (v : Option Str) : Option Str :=
  match v with
  | none => none
  | some s =>
    if s.isEmpty then none
    else
      let trimmed := jsTrim s
      if trimmed.isEmpty then none
      else
        let upper := toUpperStr trimmed
        if upper.length = 2 && upper.all fun c => 65 ≤ c.toNat && c.toNat ≤ 90 then
          some ((COUNTRY_CODE_TO_NAME.lookup upper).getD upper)
        else some trimmed

/-- `parseLocPair` of the source: split the string on every comma, destructure
the first two pieces, trim and parse each side independently. -/
def parseLocPair (value : Option Str) : Option JSNum × Option JSNum :=
  match value with
  | none => (none, none)
  | some s =>
    if s.isEmpty then (none, none)
    else
      let parts := splitOnChar ',' s
      (parseCoordinate ((parts.get? 0).map fun t => Sum.inr (jsTrim t)),
       parseCoordinate ((parts.get? 1).map fun t => Sum.inr (jsTrim t)))

/-- JS `a || b` on optional strings (empty strings are falsy). -/
def jsStrOr (a b : Option Str) : Option Str :=
  match a with
  | none => b
  | some s => if s.isEmpty then b else some s

/-- JS `(v?.trim().length ?? 0)`. -/
def trimLenOpt (v : Option Str) : ℕ :=
  match v with
  | none => 0
  | some s => (jsTrim s).length

/-- `chooseBetterIsp` of the source. -/
def chooseBetterIsp (current next : Option Str) : Option Str :=
  let currentOk := isMeaningfulText current
  let nextOk := isMeaningfulText next
  if !currentOk && nextOk then next.map jsTrim
  else if currentOk && !nextOk then current.map jsTrim
  else if currentOk && nextOk then
    if trimLenOpt next > trimLenOpt current then next.map jsTrim
    else current.map jsTrim
  else jsStrOr (current.map jsTrim) (jsStrOr (next.map jsTrim) none)

/-- `mergeIntel` of the source.  The source mutates a copy of `primary` field
by field; no field's guard reads a field mutated earlier, so the simultaneous
assignment below is the same function. -/
def mergeIntel (primary : IntelData) (incoming : PartialIntel) : IntelData :=
  let ipv4 :=
    if !(jsTruthy primary.ipv4) && jsTruthy incoming.ipv4 &&
        (detectIpFamily incoming.ipv4 == some .v4) then
      incoming.ipv4.map jsTrim
    else primary.ipv4
  let ipv6 :=
    if !(jsTruthy primary.ipv6) && jsTruthy incoming.ipv6 &&
        (detectIpFamily incoming.ipv6 == some .v6) then
      incoming.ipv6.map jsTrim
    else primary.ipv6
  let city :=
    if !(jsTruthy primary.city) && isMeaningfulText incoming.city then
      incoming.city.map jsTrim
    else primary.city
  let normalizedCountry := normalizeCountry incoming.country
  let country :=
    if !(jsTruthy primary.country) && jsTruthy normalizedCountry then
      normalizedCountry
    else primary.country
  let isp := chooseBetterIsp primary.isp incoming.isp
  let lat := parseCoordinate (incoming.lat.map Sum.inl)
  let lon := parseCoordinate (incoming.lon.map Sum.inl)
  if primary.lat = none ∧ primary.lon = none ∧ lat ≠ none ∧ lon ≠ none then
    ⟨ipv4, ipv6, isp, city, country, lat, lon⟩
  else
    ⟨ipv4, ipv6, isp, city, country, primary.lat, primary.lon⟩

/-- `hasAtLeastOneIp` of the source. -/
def hasAtLeastOneIp (data : IntelData) : Bool :=
  jsTruthy data.ipv4 || jsTruthy data.ipv6

/-- `shouldStopEarly` of the source. -/
def shouldStopEarly (data : IntelData) : Bool :=
  (jsTruthy data.ipv4 && jsTruthy data.ipv6) &&
  (isMeaningfulText data.isp || isMeaningfulText data.country)

/-- One entry of the `failures` diagnostic list in `route.ts`. -/
structure DiagnosticFailure where
  source : Str
  reason : Str
deriving DecidableEq, Repr

/-- The `NetworkIntelResponse` payload shape of `route.ts` (flattening
`data.sourcesUsed` beside the record). -/
structure NetworkIntelResponse where
  success : Bool
  data : IntelData
  sourcesUsed : List Str
  attempted : List Str
  failures : List DiagnosticFailure
deriving DecidableEq, Repr

/-- The payload assembly at the end of `GET` in `route.ts`: the success flag
is computed from the merged record alone. -/
def buildResponse (data : IntelData) (attempted : List Str)
    (failures : List DiagnosticFailure) (sourcesUsed : List Str) :
    NetworkIntelResponse :=
  { success := hasAtLeastOneIp data
    data := data
    sourcesUsed := sourcesUsed
    attempted := attempted
    failures := failures }

/-! ### Library facts about the string model -/

theorem jsTrim_nil : jsTrim [] = [] := by
  simp [jsTrim]

theorem dropWhile_jsTrim (s : Str) :
    List.dropWhile isJsWsChar (jsTrim s) = jsTrim s := by
  rcases hpre : jsTrim s with _ | ⟨c, u⟩
  · simp
  · have hp : jsTrim s <+: List.dropWhile isJsWsChar s :=
      List.rdropWhile_prefix _ _
    rw [hpre] at hp
    obtain ⟨t, ht⟩ := hp
    have hl : 0 < (List.dropWhile isJsWsChar s).length := by
      rw [← ht]; simp
    have hhead := List.dropWhile_get_zero_not isJsWsChar s hl
    have hc : (List.dropWhile isJsWsChar s).get ⟨0, hl⟩ = c := by
      have : List.dropWhile isJsWsChar s = c :: (u ++ t) := by
        rw [← ht]; simp
      simp [this]
    rw [hc] at hhead
    simp only [Bool.not_eq_true] at hhead
    simp [List.dropWhile_cons, hhead]

theorem jsTrim_idem (s : Str) : jsTrim (jsTrim s) = jsTrim s := by
  show List.rdropWhile isJsWsChar (List.dropWhile isJsWsChar (jsTrim s)) = jsTrim s
  rw [dropWhile_jsTrim]
  show List.rdropWhile isJsWsChar
      (List.rdropWhile isJsWsChar (List.dropWhile isJsWsChar s)) = _
  rw [List.rdropWhile_idempotent]
  rfl

theorem jsTrim_eq_self (s : Str) (h : ∀ c ∈ s, isJsWsChar c = false) :
    jsTrim s = s := by
  have h1 : List.dropWhile isJsWsChar s = s := by
    apply List.dropWhile_eq_self_iff.mpr
    intro hl
    simp only [List.get_eq_getElem, Bool.not_eq_true]
    exact h _ (List.getElem_mem hl)
  show List.rdropWhile isJsWsChar (List.dropWhile isJsWsChar s) = s
  rw [h1]
  apply List.rdropWhile_eq_self_iff.mpr
  intro hl
  simp [h _ (List.getLast_mem hl)]

theorem isMeaningfulText_some_iff (s : Str) :
    isMeaningfulText (some s) = true ↔
      (jsTrim s ≠ [] ∧
       GENERIC_TEXT_VALUES.contains (toLowerStr (jsTrim s)) = false) := by
  cases s with
  | nil => simp [isMeaningfulText, jsTrim_nil]
  | cons c r =>
    by_cases ht : jsTrim (c :: r) = []
    · simp [isMeaningfulText, ht]
    · simp [isMeaningfulText, ht, List.isEmpty_eq_false_iff_exists_mem]

theorem isMeaningfulText_trim (s : Str) :
    isMeaningfulText (some (jsTrim s)) = isMeaningfulText (some s) := by
  have h1 := isMeaningfulText_some_iff (jsTrim s)
  have h2 := isMeaningfulText_some_iff s
  rw [jsTrim_idem] at h1
  exact Bool.eq_iff_iff.mpr (h1.trans h2.symm)

theorem isMeaningfulText_trim_ne_nil {s : Str}
    (h : isMeaningfulText (some s) = true) : jsTrim s ≠ [] :=
  ((isMeaningfulText_some_iff s).mp h).1

theorem isMeaningfulText_ne_nil {s : Str}
    (h : isMeaningfulText (some s) = true) : s ≠ [] := by
  intro hs
  subst hs
  exact isMeaningfulText_trim_ne_nil h jsTrim_nil

theorem detectIpFamily_trim_ne_nil {s : Str} {f : IpFamily}
    (h : detectIpFamily (some s) = some f) : jsTrim s ≠ [] := by
  by_cases hs : s.isEmpty
  · simp [detectIpFamily, hs] at h
  · by_cases ht : (jsTrim s).isEmpty
    · simp [detectIpFamily, hs, ht] at h
    · simpa [List.isEmpty_iff] using ht

/-! ### Spec-side predicates (from the invariant wording of the spec) -/

/-- The spec's text-field invariant for one field: absent, or a non-empty
trimmed string that is not (case-insensitively) a placeholder. -/
def textFieldOk (v : Option Str) : Bool :=
  match v with
  | none => true
  | some s =>
    !s.isEmpty && (jsTrim s == s) &&
    !(GENERIC_TEXT_VALUES.contains (toLowerStr s))

/-- The weaker guarantee the merge actually maintains on `isp`/`country`:
absent, or a non-empty trimmed string (possibly a placeholder). -/
def textFieldWeakOk (v : Option Str) : Bool :=
  match v with
  | none => true
  | some s => !s.isEmpty && (jsTrim s == s)

/-- The spec's text-field invariant over the three text fields of a record. -/
def textInvariant (r : IntelData) : Bool :=
  textFieldOk r.isp && textFieldOk r.city && textFieldOk r.country

/-! ### Facts about `chooseBetterIsp` -/

theorem jsStrOr_eq_none {a b : Option Str} (h : jsStrOr a b = none) : b = none := by
  cases a with
  | none => exact h
  | some s =>
    by_cases hs : s.isEmpty
    · simpa [jsStrOr, hs] using h
    · simp [jsStrOr, hs] at h

theorem chooseBetterIsp_weak (c n : Option Str) :
    textFieldWeakOk (chooseBetterIsp c n) = true := by
  cases hc : isMeaningfulText c <;> cases hn : isMeaningfulText n
  · -- neither meaningful: result comes out of the `||` cascade
    simp only [chooseBetterIsp, hc, hn, Bool.not_false, Bool.and_false,
      Bool.false_and, Bool.and_self, if_neg, ite_false, Bool.and_true,
      Bool.true_and, Bool.not_true, ite_true]
    cases c with
    | none =>
      cases n with
      | none => rfl
      | some ns =>
        by_cases he : (jsTrim ns).isEmpty
        · simp [jsStrOr, he, textFieldWeakOk]
        · simp [jsStrOr, he, textFieldWeakOk, jsTrim_idem]
    | some cs =>
      by_cases he : (jsTrim cs).isEmpty
      · cases n with
        | none => simp [jsStrOr, he, textFieldWeakOk]
        | some ns =>
          by_cases hne : (jsTrim ns).isEmpty
          · simp [jsStrOr, he, hne, textFieldWeakOk]
          · simp [jsStrOr, he, hne, textFieldWeakOk, jsTrim_idem]
      · simp [jsStrOr, he, textFieldWeakOk, jsTrim_idem]
  · -- only `next` meaningful
    cases n with
    | none => simp [isMeaningfulText] at hn
    | some ns =>
      have h1 := isMeaningfulText_trim_ne_nil hn
      simp [chooseBetterIsp, hc, hn, textFieldWeakOk, jsTrim_idem,
        List.isEmpty_iff, h1]
  · -- only `current` meaningful
    cases c with
    | none => simp [isMeaningfulText] at hc
    | some cs =>
      have h1 := isMeaningfulText_trim_ne_nil hc
      simp [chooseBetterIsp, hc, hn, textFieldWeakOk, jsTrim_idem,
        List.isEmpty_iff, h1]
  · -- both meaningful
    cases c with
    | none => simp [isMeaningfulText] at hc
    | some cs =>
      cases n with
      | none => simp [isMeaningfulText] at hn
      | some ns =>
        have h1 := isMeaningfulText_trim_ne_nil hc
        have h2 := isMeaningfulText_trim_ne_nil hn
        by_cases hlen : trimLenOpt (some ns) > trimLenOpt (some cs) <;>
          simp [chooseBetterIsp, hc, hn, hlen, textFieldWeakOk, jsTrim_idem,
            List.isEmpty_iff, h1, h2]

theorem chooseBetterIsp_idem (c n : Option Str) :
    chooseBetterIsp (chooseBetterIsp c n) n = chooseBetterIsp c n := by
  cases hc : isMeaningfulText c <;> cases hn : isMeaningfulText n
  · -- neither meaningful
    have h4 : chooseBetterIsp c n =
        jsStrOr (c.map jsTrim) (jsStrOr (n.map jsTrim) none) := by
      simp [chooseBetterIsp, hc, hn]
    rcases hr : chooseBetterIsp c n with _ | t
    · -- result was none: the second pass recomputes the same cascade
      rw [h4] at hr
      have hbn : jsStrOr (n.map jsTrim) none = none := jsStrOr_eq_none hr
      have hnone : isMeaningfulText (none : Option Str) = false := rfl
      simp [chooseBetterIsp, hnone, hn, hbn]
      rfl
    · -- result was a trimmed non-empty string from one of the two sides
      rw [h4] at hr
      have ht : jsTrim t = t ∧ ¬t.isEmpty ∧ isMeaningfulText (some t) = false := by
        cases c with
        | none =>
          cases n with
          | none => simp [jsStrOr] at hr
          | some ns =>
            by_cases he : (jsTrim ns).isEmpty
            · simp [jsStrOr, he] at hr
            · simp [jsStrOr, he] at hr
              subst hr
              exact ⟨jsTrim_idem ns, he, by rw [isMeaningfulText_trim]; exact hn⟩
        | some cs =>
          by_cases he : (jsTrim cs).isEmpty
          · cases n with
            | none => simp [jsStrOr, he] at hr
            | some ns =>
              by_cases hne : (jsTrim ns).isEmpty
              · simp [jsStrOr, he, hne] at hr
              · simp [jsStrOr, he, hne] at hr
                subst hr
                exact ⟨jsTrim_idem ns, hne, by rw [isMeaningfulText_trim]; exact hn⟩
          · simp [jsStrOr, he] at hr
            subst hr
            exact ⟨jsTrim_idem cs, he, by rw [isMeaningfulText_trim]; exact hc⟩
      obtain ⟨ht1, ht2, ht3⟩ := ht
      simp [chooseBetterIsp, ht3, hn, jsStrOr, ht1, ht2]
  · -- only `next` meaningful
    cases n with
    | none => simp [isMeaningfulText] at hn
    | some ns =>
      have h1 : chooseBetterIsp c (some ns) = some (jsTrim ns) := by
        simp [chooseBetterIsp, hc, hn]
      have hm : isMeaningfulText (some (jsTrim ns)) = true := by
        rw [isMeaningfulText_trim]; exact hn
      rw [h1]
      simp [chooseBetterIsp, hm, hn, trimLenOpt, jsTrim_idem]
  · -- only `current` meaningful
    cases c with
    | none => simp [isMeaningfulText] at hc
    | some cs =>
      have h1 : chooseBetterIsp (some cs) n = some (jsTrim cs) := by
        simp [chooseBetterIsp, hc, hn]
      have hm : isMeaningfulText (some (jsTrim cs)) = true := by
        rw [isMeaningfulText_trim]; exact hc
      rw [h1]
      simp [chooseBetterIsp, hm, hn, jsTrim_idem]
  · -- both meaningful
    cases c with
    | none => simp [isMeaningfulText] at hc
    | some cs =>
      cases n with
      | none => simp [isMeaningfulText] at hn
      | some ns =>
        by_cases hlen : trimLenOpt (some ns) > trimLenOpt (some cs)
        · have h1 : chooseBetterIsp (some cs) (some ns) = some (jsTrim ns) := by
            simp [chooseBetterIsp, hc, hn, hlen]
          have hm : isMeaningfulText (some (jsTrim ns)) = true := by
            rw [isMeaningfulText_trim]; exact hn
          rw [h1]
          simp [chooseBetterIsp, hm, hn, trimLenOpt, jsTrim_idem]
        · have h1 : chooseBetterIsp (some cs) (some ns) = some (jsTrim cs) := by
            simp [chooseBetterIsp, hc, hn, hlen]
          have hm : isMeaningfulText (some (jsTrim cs)) = true := by
            rw [isMeaningfulText_trim]; exact hc
          have hlen2 : ¬(trimLenOpt (some ns) > trimLenOpt (some (jsTrim cs))) := by
            simpa [trimLenOpt, jsTrim_idem] using hlen
          rw [h1]
          simp [chooseBetterIsp, hm, hn, hlen2, jsTrim_idem]

theorem isMeaningfulText_none : isMeaningfulText none = false := rfl

theorem chooseBetterIsp_right_none (c : Option Str)
    (h : textFieldWeakOk c = true) : chooseBetterIsp c none = c := by
  cases hc : isMeaningfulText c
  · cases c with
    | none => rfl
    | some s =>
      simp [textFieldWeakOk] at h
      simp [chooseBetterIsp, hc, isMeaningfulText_none, jsStrOr, h.1, h.2]
  · cases c with
    | none => simp [isMeaningfulText] at hc
    | some s =>
      simp [textFieldWeakOk] at h
      simp [chooseBetterIsp, hc, isMeaningfulText_none, h.2]

/-! ### Projections of `mergeIntel` -/

theorem mergeIntel_ipv4 (r : IntelData) (p : PartialIntel) :
    (mergeIntel r p).ipv4 =
      if !(jsTruthy r.ipv4) && jsTruthy p.ipv4 &&
          (detectIpFamily p.ipv4 == some .v4) then
        p.ipv4.map jsTrim
      else r.ipv4 := by
  unfold mergeIntel
  dsimp only
  split <;> split <;> split <;> split <;> split <;> rfl

theorem mergeIntel_ipv6 (r : IntelData) (p : PartialIntel) :
    (mergeIntel r p).ipv6 =
      if !(jsTruthy r.ipv6) && jsTruthy p.ipv6 &&
          (detectIpFamily p.ipv6 == some .v6) then
        p.ipv6.map jsTrim
      else r.ipv6 := by
  unfold mergeIntel
  dsimp only
  split <;> split <;> split <;> split <;> split <;> rfl

theorem mergeIntel_city (r : IntelData) (p : PartialIntel) :
    (mergeIntel r p).city =
      if !(jsTruthy r.city) && isMeaningfulText p.city then
        p.city.map jsTrim
      else r.city := by
  unfold mergeIntel
  dsimp only
  split <;> split <;> split <;> split <;> split <;> rfl

theorem mergeIntel_country (r : IntelData) (p : PartialIntel) :
    (mergeIntel r p).country =
      if !(jsTruthy r.country) && jsTruthy (normalizeCountry p.country) then
        normalizeCountry p.country
      else r.country := by
  unfold mergeIntel
  dsimp only
  split <;> split <;> split <;> split <;> split <;> rfl

theorem mergeIntel_isp (r : IntelData) (p : PartialIntel) :
    (mergeIntel r p).isp = chooseBetterIsp r.isp p.isp := by
  unfold mergeIntel
  dsimp only
  split <;> split <;> split <;> split <;> split <;> rfl

theorem mergeIntel_latlon (r : IntelData) (p : PartialIntel) :
    ((mergeIntel r p).lat, (mergeIntel r p).lon) =
      if r.lat = none ∧ r.lon = none ∧
          parseCoordinate (p.lat.map Sum.inl) ≠ none ∧
          parseCoordinate (p.lon.map Sum.inl) ≠ none then
        (parseCoordinate (p.lat.map Sum.inl), parseCoordinate (p.lon.map Sum.inl))
      else (r.lat, r.lon) := by
  unfold mergeIntel
  dsimp only
  split <;> split <;> split <;> split <;> split <;> rfl

/-- Whether an optional JS number is present and finite. -/
def isFiniteNumOpt (o : Option JSNum) : Bool :=
  match o with
  | none => false
  | some n => n.isFinite

theorem parseCoordinate_num (o : Option JSNum) :
    parseCoordinate (o.map Sum.inl) = if isFiniteNumOpt o then o else none := by
  cases o with
  | none => rfl
  | some n => cases n <;> rfl

theorem meaningful_truthy {v : Option Str}
    (h : isMeaningfulText v = true) : jsTruthy v = true := by
  cases v with
  | none => simp [isMeaningfulText] at h
  | some s =>
    simp only [jsTruthy, Bool.not_eq_true', List.isEmpty_eq_false_iff_exists_mem]
    exact List.exists_mem_of_ne_nil s (isMeaningfulText_ne_nil h)

/-- The spec's "whichever is non-empty after trimming, preferring current". -/
def nonEmptyTrimmed (v : Option Str) : Option Str :=
  match v with
  | none => none
  | some s => if (jsTrim s).isEmpty then none else some (jsTrim s)

/-- First of the two sides that is non-empty after trimming, preferring the
first (current) side. -/
def firstNonEmptyTrimmed (c n : Option Str) : Option Str :=
  match nonEmptyTrimmed c with
  | some t => some t
  | none => nonEmptyTrimmed n

theorem jsStrOr_cascade_eq (c n : Option Str) :
    jsStrOr (c.map jsTrim) (jsStrOr (n.map jsTrim) none) =
      firstNonEmptyTrimmed c n := by
  cases c with
  | none =>
    cases n with
    | none => rfl
    | some ns =>
      by_cases h : (jsTrim ns).isEmpty <;>
        simp [jsStrOr, nonEmptyTrimmed, firstNonEmptyTrimmed, h]
  | some cs =>
    by_cases h : (jsTrim cs).isEmpty
    · cases n with
      | none => simp [jsStrOr, nonEmptyTrimmed, firstNonEmptyTrimmed, h]
      | some ns =>
        by_cases h2 : (jsTrim ns).isEmpty <;>
          simp [jsStrOr, nonEmptyTrimmed, firstNonEmptyTrimmed, h, h2]
    · simp [jsStrOr, nonEmptyTrimmed, firstNonEmptyTrimmed, h]

/-- C6: the ISP tie-break takes the meaningful side (trimmed); with both
sides meaningful it keeps the longer trimmed string, ties keeping current;
with neither meaningful it keeps whichever is non-empty after trimming,
preferring current; and the three concrete examples of the spec hold. -/
theorem C6_chooseBetterIsp_spec :
    (∀ c n : Option Str, isMeaningfulText c = false → isMeaningfulText n = true →
      chooseBetterIsp c n = n.map jsTrim) ∧
    (∀ c n : Option Str, isMeaningfulText c = true → isMeaningfulText n = false →
      chooseBetterIsp c n = c.map jsTrim) ∧
    (∀ cs ns : Str, isMeaningfulText (some cs) = true →
      isMeaningfulText (some ns) = true →
      chooseBetterIsp (some cs) (some ns) =
        some (if (jsTrim cs).length < (jsTrim ns).length then jsTrim ns
              else jsTrim cs)) ∧
    (∀ c n : Option Str, isMeaningfulText c = false → isMeaningfulText n = false →
      chooseBetterIsp c n = firstNonEmptyTrimmed c n) ∧
    chooseBetterIsp (some ("Acme".data)) (some ("Acme Telecom".data)) =
      some ("Acme Telecom".data) ∧
    chooseBetterIsp none (some ("Acme".data)) = some ("Acme".data) ∧
    chooseBetterIsp (some ("Acme".data)) (some ("unknown".data)) =
      some ("Acme".data) := by
  refine ⟨?_, ?_, ?_, ?_, by decide, by decide, by decide⟩
  · intro c n hc hn
    simp [chooseBetterIsp, hc, hn]
  · intro c n hc hn
    simp [chooseBetterIsp, hc, hn]
  · intro cs ns hc hn
    by_cases hlen : (jsTrim cs).length < (jsTrim ns).length
    · have hgt : trimLenOpt (some ns) > trimLenOpt (some cs) := by
        simpa [trimLenOpt] using hlen
      simp [chooseBetterIsp, hc, hn, hgt, hlen]
    · have hgt : ¬(trimLenOpt (some ns) > trimLenOpt (some cs)) := by
        simpa [trimLenOpt] using hlen
      simp [chooseBetterIsp, hc, hn, hgt, hlen]
  · intro c n hc hn
    have h4 : chooseBetterIsp c n =
        jsStrOr (c.map jsTrim) (jsStrOr (n.map jsTrim) none) := by
      simp [chooseBetterIsp, hc, hn]
    rw [h4, jsStrOr_cascade_eq]

theorem C6_chooseBetterIsp_spec_witness :
    chooseBetterIsp none (some ("Acme".data)) =
      Option.map jsTrim (some ("Acme".data)) :=
  C6_chooseBetterIsp_spec.1 none (some ("Acme".data)) (by decide) (by decide)

/-- C4: merge never downgrades: a meaningful city/country is kept exactly
(hence never becomes null), and a populated ipv4/ipv6 is returned unchanged. -/
theorem C4_merge_never_downgrades (r : IntelData) (p : PartialIntel) :
    (isMeaningfulText r.city = true →
      (mergeIntel r p).city = r.city ∧ (mergeIntel r p).city ≠ none) ∧
    (isMeaningfulText r.country = true →
      (mergeIntel r p).country = r.country ∧ (mergeIntel r p).country ≠ none) ∧
    (jsTruthy r.ipv4 = true → (mergeIntel r p).ipv4 = r.ipv4) ∧
    (jsTruthy r.ipv6 = true → (mergeIntel r p).ipv6 = r.ipv6) := by
  refine ⟨?_, ?_, ?_, ?_⟩
  · intro h
    have ht := meaningful_truthy h
    have hc : (mergeIntel r p).city = r.city := by
      rw [mergeIntel_city, ht]; simp
    refine ⟨hc, ?_⟩
    rw [hc]
    intro hnone
    rw [hnone] at h
    simp [isMeaningfulText] at h
  · intro h
    have ht := meaningful_truthy h
    have hc : (mergeIntel r p).country = r.country := by
      rw [mergeIntel_country, ht]; simp
    refine ⟨hc, ?_⟩
    rw [hc]
    intro hnone
    rw [hnone] at h
    simp [isMeaningfulText] at h
  · intro h
    rw [mergeIntel_ipv4, h]; simp
  · intro h
    rw [mergeIntel_ipv6, h]; simp

theorem C4_merge_never_downgrades_witness :
    (mergeIntel ⟨none, none, none, some ("Berlin".data), none, none, none⟩ {}).city =
      (⟨none, none, none, some ("Berlin".data), none, none, none⟩ : IntelData).city ∧
    (mergeIntel ⟨none, none, none, some ("Berlin".data), none, none, none⟩ {}).city ≠
      none :=
  (C4_merge_never_downgrades _ _).1 (by decide)

theorem parseCoordinate_num_ne_none (o : Option JSNum) :
    (parseCoordinate (o.map Sum.inl) ≠ none) ↔ isFiniteNumOpt o = true := by
  rw [parseCoordinate_num]
  cases ho : isFiniteNumOpt o
  · simp
  · cases o with
    | none => simp [isFiniteNumOpt] at ho
    | some n => simp

theorem mergeIntel_latlon_cond (r : IntelData) (p : PartialIntel) :
    (r.lat = none ∧ r.lon = none ∧
     parseCoordinate (p.lat.map Sum.inl) ≠ none ∧
     parseCoordinate (p.lon.map Sum.inl) ≠ none) ↔
    (r.lat = none ∧ r.lon = none ∧
     isFiniteNumOpt p.lat = true ∧ isFiniteNumOpt p.lon = true) := by
  simp [parseCoordinate_num_ne_none]

/-- C5: coordinates move only as an atomic pair: from a record whose lat/lon
are both present or both absent, the merged record keeps that shape; the
incoming pair is adopted exactly when both current coordinates are absent and
both incoming values are present finite numbers; otherwise both coordinates
are returned unchanged. -/
theorem C5_latlon_atomic (r : IntelData) (p : PartialIntel)
    (h : r.lat = none ↔ r.lon = none) :
    ((mergeIntel r p).lat = none ↔ (mergeIntel r p).lon = none) ∧
    (r.lat = none ∧ r.lon = none ∧ isFiniteNumOpt p.lat = true ∧
        isFiniteNumOpt p.lon = true →
      (mergeIntel r p).lat = p.lat ∧ (mergeIntel r p).lon = p.lon) ∧
    (¬(r.lat = none ∧ r.lon = none ∧ isFiniteNumOpt p.lat = true ∧
        isFiniteNumOpt p.lon = true) →
      (mergeIntel r p).lat = r.lat ∧ (mergeIntel r p).lon = r.lon) := by
  have hpair := mergeIntel_latlon r p
  by_cases hc : r.lat = none ∧ r.lon = none ∧
      parseCoordinate (p.lat.map Sum.inl) ≠ none ∧
      parseCoordinate (p.lon.map Sum.inl) ≠ none
  · rw [if_pos hc] at hpair
    have hlat := congrArg Prod.fst hpair
    have hlon := congrArg Prod.snd hpair
    simp only at hlat hlon
    have hfl : isFiniteNumOpt p.lat = true :=
      (parseCoordinate_num_ne_none p.lat).mp hc.2.2.1
    have hfo : isFiniteNumOpt p.lon = true :=
      (parseCoordinate_num_ne_none p.lon).mp hc.2.2.2
    have hvl : parseCoordinate (p.lat.map Sum.inl) = p.lat := by
      rw [parseCoordinate_num, hfl]; rfl
    have hvo : parseCoordinate (p.lon.map Sum.inl) = p.lon := by
      rw [parseCoordinate_num, hfo]; rfl
    refine ⟨?_, fun _ => ⟨hlat.trans hvl, hlon.trans hvo⟩, fun hn => ?_⟩
    · rw [hlat, hvl, hlon, hvo]
      have hne1 : p.lat ≠ none := by
        intro he; rw [he] at hfl; simp [isFiniteNumOpt] at hfl
      have hne2 : p.lon ≠ none := by
        intro he; rw [he] at hfo; simp [isFiniteNumOpt] at hfo
      exact iff_of_false hne1 hne2
    · exact absurd ((mergeIntel_latlon_cond r p).mp hc) hn
  · rw [if_neg hc] at hpair
    have hlat := congrArg Prod.fst hpair
    have hlon := congrArg Prod.snd hpair
    simp only at hlat hlon
    refine ⟨by rw [hlat, hlon]; exact h, fun hyp => ?_, fun _ => ⟨hlat, hlon⟩⟩
    exact absurd ((mergeIntel_latlon_cond r p).mpr hyp) hc

theorem C5_latlon_atomic_witness :
    (mergeIntel EMPTY_INTEL
        ⟨none, none, none, none, none, some (.fin 1), some (.fin 2)⟩).lat =
      (⟨none, none, none, none, none, some (.fin 1), some (.fin 2)⟩ :
        PartialIntel).lat ∧
    (mergeIntel EMPTY_INTEL
        ⟨none, none, none, none, none, some (.fin 1), some (.fin 2)⟩).lon =
      (⟨none, none, none, none, none, some (.fin 1), some (.fin 2)⟩ :
        PartialIntel).lon :=
  (C5_latlon_atomic EMPTY_INTEL _ (by decide)).2.1 (by decide)

/-- C7: the early-stop predicate holds exactly when both address families are
populated and at least one of isp/country is meaningful; with both IPs but no
meaningful isp/country it is false, and putting a meaningful country (or isp)
into such a record makes it true. -/
theorem C7_shouldStopEarly_spec (r : IntelData) :
    (shouldStopEarly r = true ↔
      (jsTruthy r.ipv4 = true ∧ jsTruthy r.ipv6 = true ∧
       (isMeaningfulText r.isp = true ∨ isMeaningfulText r.country = true))) ∧
    (jsTruthy r.ipv4 = true → jsTruthy r.ipv6 = true →
      isMeaningfulText r.isp = false → isMeaningfulText r.country = false →
      shouldStopEarly r = false) ∧
    (∀ c : Str, jsTruthy r.ipv4 = true → jsTruthy r.ipv6 = true →
      isMeaningfulText (some c) = true →
      shouldStopEarly { r with country := some c } = true) ∧
    (∀ i : Str, jsTruthy r.ipv4 = true → jsTruthy r.ipv6 = true →
      isMeaningfulText (some i) = true →
      shouldStopEarly { r with isp := some i } = true) := by
  refine ⟨?_, ?_, ?_, ?_⟩
  · simp [shouldStopEarly, and_assoc]
  · intro h1 h2 h3 h4
    simp [shouldStopEarly, h1, h2, h3, h4]
  · intro c h1 h2 hm
    simp [shouldStopEarly, h1, h2, hm]
  · intro i h1 h2 hm
    simp [shouldStopEarly, h1, h2, hm]

theorem C7_shouldStopEarly_spec_witness :
    shouldStopEarly
      ⟨some ("203.0.113.5".data), some ("2001:db8::1".data),
       none, none, none, none, none⟩ = false :=
  (C7_shouldStopEarly_spec _).2.1 (by decide) (by decide) (by decide) (by decide)

theorem jsTruthy_iff_ne_none {v : Option Str} (h : v ≠ some []) :
    (jsTruthy v = true) ↔ v ≠ none := by
  cases v with
  | none => simp [jsTruthy]
  | some s =>
    cases s with
    | nil => exact absurd rfl h
    | cons c t => simp [jsTruthy]

theorem mergeIntel_ipv4_not_empty (r : IntelData) (p : PartialIntel)
    (h : r.ipv4 ≠ some []) : (mergeIntel r p).ipv4 ≠ some [] := by
  rw [mergeIntel_ipv4]
  split
  case isTrue hcond =>
    have hdet : (detectIpFamily p.ipv4 == some IpFamily.v4) = true :=
      (Bool.and_eq_true _ _).mp hcond |>.2
    rw [beq_iff_eq] at hdet
    cases hp : p.ipv4 with
    | none => rw [hp] at hdet; simp [detectIpFamily] at hdet
    | some s =>
      rw [hp] at hdet
      intro heq
      have hnil : jsTrim s = [] := by simpa using heq
      exact detectIpFamily_trim_ne_nil hdet hnil
  case isFalse => exact h

theorem mergeIntel_ipv6_not_empty (r : IntelData) (p : PartialIntel)
    (h : r.ipv6 ≠ some []) : (mergeIntel r p).ipv6 ≠ some [] := by
  rw [mergeIntel_ipv6]
  split
  case isTrue hcond =>
    have hdet : (detectIpFamily p.ipv6 == some IpFamily.v6) = true :=
      (Bool.and_eq_true _ _).mp hcond |>.2
    rw [beq_iff_eq] at hdet
    cases hp : p.ipv6 with
    | none => rw [hp] at hdet; simp [detectIpFamily] at hdet
    | some s =>
      rw [hp] at hdet
      intro heq
      have hnil : jsTrim s = [] := by simpa using heq
      exact detectIpFamily_trim_ne_nil hdet hnil
  case isFalse => exact h

/-- C8: the response's success flag is true iff the final record holds at
least one address family (records reachable by merging never store an
empty-string address, per the hypotheses and the `mergeIntel` conjunct), and
the flag does not depend on the failures diagnostics, so individual provider
failures never fail the operation. -/
theorem C8_success_iff_ip (data : IntelData) (attempted : List Str)
    (failures : List DiagnosticFailure) (sourcesUsed : List Str)
    (h4 : data.ipv4 ≠ some []) (h6 : data.ipv6 ≠ some []) :
    ((buildResponse data attempted failures sourcesUsed).success = true ↔
      (data.ipv4 ≠ none ∨ data.ipv6 ≠ none)) ∧
    (∀ failures2 : List DiagnosticFailure,
      (buildResponse data attempted failures2 sourcesUsed).success =
        (buildResponse data attempted failures sourcesUsed).success) ∧
    (∀ p : PartialIntel,
      (mergeIntel data p).ipv4 ≠ some [] ∧ (mergeIntel data p).ipv6 ≠ some []) := by
  refine ⟨?_, fun _ => rfl, fun p =>
    ⟨mergeIntel_ipv4_not_empty data p h4, mergeIntel_ipv6_not_empty data p h6⟩⟩
  simp [buildResponse, hasAtLeastOneIp, Bool.or_eq_true,
    jsTruthy_iff_ne_none h4, jsTruthy_iff_ne_none h6]

theorem C8_success_iff_ip_witness :
    ((buildResponse EMPTY_INTEL [] [] []).success = true ↔
      (EMPTY_INTEL.ipv4 ≠ none ∨ EMPTY_INTEL.ipv6 ≠ none)) :=
  (C8_success_iff_ip EMPTY_INTEL [] [] [] (by decide) (by decide)).1

/-- C10: merging the empty observation is a right identity, provided the isp
field is null or a non-empty trimmed string: no field changes, so a provider
whose parse yields an empty observation never changes the merged record. -/
theorem C10_merge_empty_identity (r : IntelData)
    (h : textFieldWeakOk r.isp = true) :
    mergeIntel r {} = r := by
  ext1
  · rw [mergeIntel_ipv4]; simp [jsTruthy]
  · rw [mergeIntel_ipv6]; simp [jsTruthy]
  · rw [mergeIntel_isp]
    exact chooseBetterIsp_right_none r.isp h
  · rw [mergeIntel_city]; simp [isMeaningfulText]
  · rw [mergeIntel_country]; simp [normalizeCountry, jsTruthy]
  · have hpair := mergeIntel_latlon r ({} : PartialIntel)
    rw [if_neg (by simp [parseCoordinate])] at hpair
    exact congrArg Prod.fst hpair
  · have hpair := mergeIntel_latlon r ({} : PartialIntel)
    rw [if_neg (by simp [parseCoordinate])] at hpair
    exact congrArg Prod.snd hpair

theorem C10_merge_empty_identity_witness :
    mergeIntel ⟨some ("203.0.113.5".data), none, some ("Acme".data),
        none, none, none, none⟩ {} =
      ⟨some ("203.0.113.5".data), none, some ("Acme".data),
        none, none, none, none⟩ :=
  C10_merge_empty_identity _ (by decide)

/-- C3: `mergeIntel` is idempotent on identical input: merging the same
observation twice gives the same record as merging it once, field by field. -/
theorem C3_mergeIntel_idempotent (r : IntelData) (p : PartialIntel) :
    mergeIntel (mergeIntel r p) p = mergeIntel r p := by
  have hipv4 : (mergeIntel (mergeIntel r p) p).ipv4 = (mergeIntel r p).ipv4 := by
    cases hcond : (!(jsTruthy r.ipv4) && jsTruthy p.ipv4 &&
        (detectIpFamily p.ipv4 == some IpFamily.v4)) with
    | false =>
      have hm : (mergeIntel r p).ipv4 = r.ipv4 := by
        rw [mergeIntel_ipv4, hcond]; simp
      rw [mergeIntel_ipv4, hm, hcond]; simp
    | true =>
      have h3 := ((Bool.and_eq_true _ _).mp hcond).2
      have h2 := ((Bool.and_eq_true _ _).mp ((Bool.and_eq_true _ _).mp hcond).1).2
      rw [beq_iff_eq] at h3
      have hm : (mergeIntel r p).ipv4 = p.ipv4.map jsTrim := by
        rw [mergeIntel_ipv4, hcond]; simp
      cases hp : p.ipv4 with
      | none => rw [hp] at h2; simp [jsTruthy] at h2
      | some s =>
        rw [hp] at hm h3
        have hne := detectIpFamily_trim_ne_nil h3
        have htr : jsTruthy ((mergeIntel r p).ipv4) = true := by
          rw [hm]; simp [jsTruthy, List.isEmpty_iff, hne]
        rw [mergeIntel_ipv4 (mergeIntel r p) p]
        simp [htr]
  have hipv6 : (mergeIntel (mergeIntel r p) p).ipv6 = (mergeIntel r p).ipv6 := by
    cases hcond : (!(jsTruthy r.ipv6) && jsTruthy p.ipv6 &&
        (detectIpFamily p.ipv6 == some IpFamily.v6)) with
    | false =>
      have hm : (mergeIntel r p).ipv6 = r.ipv6 := by
        rw [mergeIntel_ipv6, hcond]; simp
      rw [mergeIntel_ipv6, hm, hcond]; simp
    | true =>
      have h3 := ((Bool.and_eq_true _ _).mp hcond).2
      have h2 := ((Bool.and_eq_true _ _).mp ((Bool.and_eq_true _ _).mp hcond).1).2
      rw [beq_iff_eq] at h3
      have hm : (mergeIntel r p).ipv6 = p.ipv6.map jsTrim := by
        rw [mergeIntel_ipv6, hcond]; simp
      cases hp : p.ipv6 with
      | none => rw [hp] at h2; simp [jsTruthy] at h2
      | some s =>
        rw [hp] at hm h3
        have hne := detectIpFamily_trim_ne_nil h3
        have htr : jsTruthy ((mergeIntel r p).ipv6) = true := by
          rw [hm]; simp [jsTruthy, List.isEmpty_iff, hne]
        rw [mergeIntel_ipv6 (mergeIntel r p) p]
        simp [htr]
  have hcity : (mergeIntel (mergeIntel r p) p).city = (mergeIntel r p).city := by
    cases hcond : (!(jsTruthy r.city) && isMeaningfulText p.city) with
    | false =>
      have hm : (mergeIntel r p).city = r.city := by
        rw [mergeIntel_city, hcond]; simp
      rw [mergeIntel_city, hm, hcond]; simp
    | true =>
      have h2 := ((Bool.and_eq_true _ _).mp hcond).2
      have hm : (mergeIntel r p).city = p.city.map jsTrim := by
        rw [mergeIntel_city, hcond]; simp
      cases hp : p.city with
      | none => rw [hp] at h2; simp [isMeaningfulText] at h2
      | some s =>
        rw [hp] at hm h2
        have hne := isMeaningfulText_trim_ne_nil h2
        have htr : jsTruthy ((mergeIntel r p).city) = true := by
          rw [hm]; simp [jsTruthy, List.isEmpty_iff, hne]
        rw [mergeIntel_city (mergeIntel r p) p]
        simp [htr]
  have hcountry :
      (mergeIntel (mergeIntel r p) p).country = (mergeIntel r p).country := by
    cases hcond : (!(jsTruthy r.country) && jsTruthy (normalizeCountry p.country)) with
    | false =>
      have hm : (mergeIntel r p).country = r.country := by
        rw [mergeIntel_country, hcond]; simp
      rw [mergeIntel_country, hm, hcond]; simp
    | true =>
      have h2 := ((Bool.and_eq_true _ _).mp hcond).2
      have hm : (mergeIntel r p).country = normalizeCountry p.country := by
        rw [mergeIntel_country, hcond]; simp
      have htr : jsTruthy ((mergeIntel r p).country) = true := by
        rw [hm]; exact h2
      rw [mergeIntel_country (mergeIntel r p) p]
      simp [htr]
  have hisp : (mergeIntel (mergeIntel r p) p).isp = (mergeIntel r p).isp := by
    rw [mergeIntel_isp (mergeIntel r p) p, mergeIntel_isp r p,
      chooseBetterIsp_idem]
  have hlatlon :
      ((mergeIntel (mergeIntel r p) p).lat, (mergeIntel (mergeIntel r p) p).lon) =
        ((mergeIntel r p).lat, (mergeIntel r p).lon) := by
    by_cases hc : r.lat = none ∧ r.lon = none ∧
        parseCoordinate (p.lat.map Sum.inl) ≠ none ∧
        parseCoordinate (p.lon.map Sum.inl) ≠ none
    · have hpair := mergeIntel_latlon r p
      rw [if_pos hc] at hpair
      have hlat := congrArg Prod.fst hpair
      have hlon := congrArg Prod.snd hpair
      simp only at hlat hlon
      have hpair2 := mergeIntel_latlon (mergeIntel r p) p
      rw [if_neg (by rw [hlat]; exact fun hx => hc.2.2.1 hx.1)] at hpair2
      exact hpair2
    · have hpair := mergeIntel_latlon r p
      rw [if_neg hc] at hpair
      have hlat := congrArg Prod.fst hpair
      have hlon := congrArg Prod.snd hpair
      simp only at hlat hlon
      have hpair2 := mergeIntel_latlon (mergeIntel r p) p
      rw [if_neg (by rw [hlat, hlon]; exact hc)] at hpair2
      rw [hpair2, hlat, hlon]
  ext1
  · exact hipv4
  · exact hipv6
  · exact hisp
  · exact hcity
  · exact hcountry
  · exact congrArg Prod.fst hlatlon
  · exact congrArg Prod.snd hlatlon

theorem isJsWsChar_false_printable {c : Char} (hlo : 33 ≤ c.toNat)
    (hhi : c.toNat ≤ 126) : isJsWsChar c = false := by
  simp only [isJsWsChar, Bool.or_eq_false_iff, Bool.and_eq_false_iff,
    decide_eq_false_iff_not]
  omega

theorem lookup_mem_snd {l : List (Str × Str)} {a b : Str}
    (h : List.lookup a l = some b) : b ∈ l.map Prod.snd := by
  induction l with
  | nil => simp [List.lookup] at h
  | cons hd tl ih =>
    obtain ⟨k, v⟩ := hd
    rw [List.lookup] at h
    cases hab : (a == k) with
    | true =>
      rw [hab] at h
      simp only [Option.some_inj] at h
      subst h
      simp
    | false =>
      rw [hab] at h
      simp only [List.map_cons, List.mem_cons]
      exact Or.inr (ih h)

theorem textFieldOk_weak {v : Option Str} (h : textFieldOk v = true) :
    textFieldWeakOk v = true := by
  cases v with
  | none => rfl
  | some s =>
    simp [textFieldOk] at h
    obtain ⟨⟨h1, h2⟩, -⟩ := h
    simp [textFieldWeakOk, List.isEmpty_iff, h1, h2]

theorem normalizeCountry_weak (v : Option Str) :
    textFieldWeakOk (normalizeCountry v) = true := by
  cases v with
  | none => rfl
  | some s =>
    by_cases hs : s.isEmpty
    · simp [normalizeCountry, hs, textFieldWeakOk]
    · by_cases ht : (jsTrim s).isEmpty
      · simp [normalizeCountry, hs, ht, textFieldWeakOk]
      · rw [normalizeCountry]
        simp only [hs, ht, Bool.false_eq_true, if_false]
        split
        next hcond =>
          have hlen := ((Bool.and_eq_true _ _).mp hcond).1
          have hall := ((Bool.and_eq_true _ _).mp hcond).2
          rw [decide_eq_true_iff] at hlen
          cases hl : COUNTRY_CODE_TO_NAME.lookup (toUpperStr (jsTrim s)) with
          | some t =>
            have hmem := lookup_mem_snd hl
            have htab : ∀ t2 ∈ COUNTRY_CODE_TO_NAME.map Prod.snd,
                t2 ≠ [] ∧ jsTrim t2 = t2 := by decide
            have hprops := htab t hmem
            simp [textFieldWeakOk, hl, hprops.1, hprops.2, List.isEmpty_iff]
          | none =>
            have hupper : jsTrim (toUpperStr (jsTrim s)) = toUpperStr (jsTrim s) := by
              apply jsTrim_eq_self
              intro c hc
              have hcc := (List.all_eq_true.mp hall) c hc
              simp only [Bool.and_eq_true, decide_eq_true_eq] at hcc
              exact isJsWsChar_false_printable (by omega) (by omega)
            have hne : toUpperStr (jsTrim s) ≠ [] := by
              intro he
              rw [he] at hlen
              simp at hlen
            simp [textFieldWeakOk, hl, hupper, List.isEmpty_iff, hne]
        next hcond =>
          simp [textFieldWeakOk, jsTrim_idem, List.isEmpty_iff] at ht ⊢
          exact ht

/-- C1 counterexample: the empty record satisfies the text-field invariant,
yet merging `{country: "unknown"}` stores the placeholder "unknown" into
`country`, and merging `{isp: "unknown"}` stores it into `isp`; the merged
records violate the invariant. -/
theorem C1_counterexample :
    textInvariant EMPTY_INTEL = true ∧
    (mergeIntel EMPTY_INTEL
        ⟨none, none, none, none, some ("unknown".data), none, none⟩).country =
      some ("unknown".data) ∧
    textInvariant (mergeIntel EMPTY_INTEL
        ⟨none, none, none, none, some ("unknown".data), none, none⟩) = false ∧
    (mergeIntel EMPTY_INTEL
        ⟨none, none, some ("unknown".data), none, none, none, none⟩).isp =
      some ("unknown".data) ∧
    textInvariant (mergeIntel EMPTY_INTEL
        ⟨none, none, some ("unknown".data), none, none, none, none⟩) = false :=
  ⟨by decide, by decide, by decide, by decide, by decide⟩

/-- C1 (amended): for a record satisfying the text-field invariant and any
observation, the merged record's `city` still satisfies the full invariant
(non-empty, trimmed, not a placeholder), while `isp` and `country` satisfy
the weaker guarantee that the merge actually maintains: absent or non-empty
and trimmed — they may receive a placeholder string. -/
theorem C1_text_invariant_amended (r : IntelData) (p : PartialIntel)
    (h : textInvariant r = true) :
    textFieldOk (mergeIntel r p).city = true ∧
    textFieldWeakOk (mergeIntel r p).isp = true ∧
    textFieldWeakOk (mergeIntel r p).country = true := by
  have hsplit := h
  simp only [textInvariant, Bool.and_eq_true] at hsplit
  obtain ⟨⟨hhisp, hhcity⟩, hhcountry⟩ := hsplit
  refine ⟨?_, ?_, ?_⟩
  · rw [mergeIntel_city]
    cases hcond : (!(jsTruthy r.city) && isMeaningfulText p.city) with
    | false => simp [hhcity]
    | true =>
      have h2 := ((Bool.and_eq_true _ _).mp hcond).2
      cases hp : p.city with
      | none => rw [hp] at h2; simp [isMeaningfulText] at h2
      | some s =>
        rw [hp] at h2
        have hmi := (isMeaningfulText_some_iff s).mp h2
        have hnc : toLowerStr (jsTrim s) ∉ GENERIC_TEXT_VALUES := by
          simpa using hmi.2
        simp [textFieldOk, List.isEmpty_iff, hmi.1, jsTrim_idem, hnc]
  · rw [mergeIntel_isp]
    exact chooseBetterIsp_weak r.isp p.isp
  · rw [mergeIntel_country]
    cases hcond : (!(jsTruthy r.country) && jsTruthy (normalizeCountry p.country)) with
    | false => simp [textFieldOk_weak hhcountry]
    | true => simp [normalizeCountry_weak p.country]

theorem C1_text_invariant_amended_witness :
    textFieldOk (mergeIntel EMPTY_INTEL
      ⟨none, none, none, some (" Berlin ".data), none, none, none⟩).city = true ∧
    textFieldWeakOk (mergeIntel EMPTY_INTEL
      ⟨none, none, none, some (" Berlin ".data), none, none, none⟩).isp = true ∧
    textFieldWeakOk (mergeIntel EMPTY_INTEL
      ⟨none, none, none, some (" Berlin ".data), none, none, none⟩).country = true :=
  C1_text_invariant_amended EMPTY_INTEL _ (by decide)

/-! ### Facts about the splitter and the number grammar on digit strings -/

theorem splitOnChar_ne_nil (sep : Char) (s : Str) : splitOnChar sep s ≠ [] := by
  induction s with
  | nil => simp [splitOnChar]
  | cons c rest ih =>
    rw [splitOnChar]
    rcases hsp : splitOnChar sep rest with _ | ⟨h1, t1⟩
    · exact absurd hsp ih
    · dsimp only
      split <;> simp

theorem mem_splitOnChar (sep : Char) {s : Str} {c : Char} (h : c ∈ s) :
    c = sep ∨ ∃ part ∈ splitOnChar sep s, c ∈ part := by
  induction s with
  | nil => simp at h
  | cons a rest ih =>
    rcases List.mem_cons.mp h with rfl | hmem
    · by_cases ha : c = sep
      · exact Or.inl ha
      · right
        rw [splitOnChar]
        rcases hsp : splitOnChar sep rest with _ | ⟨h1, t1⟩
        · exact absurd hsp (splitOnChar_ne_nil sep rest)
        · dsimp only
          rw [if_neg ha]
          exact ⟨c :: h1, List.mem_cons_self _ _, List.mem_cons_self _ _⟩
    · rcases ih hmem with hc | ⟨part, hpmem, hcmem⟩
      · exact Or.inl hc
      · right
        rw [splitOnChar]
        rcases hsp : splitOnChar sep rest with _ | ⟨h1, t1⟩
        · exact absurd hsp (splitOnChar_ne_nil sep rest)
        · dsimp only
          rw [hsp] at hpmem
          by_cases ha : a = sep
          · rw [if_pos ha]
            exact ⟨part, List.mem_cons_of_mem _ hpmem, hcmem⟩
          · rw [if_neg ha]
            rcases List.mem_cons.mp hpmem with rfl | hpt
            · exact ⟨a :: part, List.mem_cons_self _ _,
                List.mem_cons_of_mem _ hcmem⟩
            · exact ⟨part, List.mem_cons_of_mem _ hpt, hcmem⟩

theorem digit_char_facts {c : Char} (h : isDigitChar c = true) :
    48 ≤ c.toNat ∧ c.toNat ≤ 57 := by
  simpa [isDigitChar] using h

theorem parseNonDecimalInt_digits {d : Str} (hd : d.all isDigitChar = true) :
    parseNonDecimalInt d = none := by
  match d with
  | [] => rfl
  | [c] => rfl
  | c :: x :: ds =>
    rw [parseNonDecimalInt]
    by_cases hc : c = '0'
    · rw [if_pos hc]
      have hx : isDigitChar x = true := by
        simp [List.all_cons] at hd
        exact hd.2.1
      have hx1 : ¬(x = 'x' ∨ x = 'X') := by
        rintro (rfl | rfl) <;> revert hx <;> decide
      have hx2 : ¬(x = 'o' ∨ x = 'O') := by
        rintro (rfl | rfl) <;> revert hx <;> decide
      have hx3 : ¬(x = 'b' ∨ x = 'B') := by
        rintro (rfl | rfl) <;> revert hx <;> decide
      rw [if_neg (by tauto), if_neg (by tauto), if_neg (by tauto)]
    · rw [if_neg hc]

theorem decDigits_all {d : Str} (hd : d.all isDigitChar = true) :
    decDigits d = (d, []) := by
  have h1 : d.dropWhile isDigitChar = [] :=
    List.dropWhile_eq_nil_iff.mpr (List.all_eq_true.mp hd)
  have h2 : d.takeWhile isDigitChar = d :=
    List.takeWhile_eq_self_iff.mpr (List.all_eq_true.mp hd)
  simp [decDigits, h1, h2]

theorem jsTrim_digits {d : Str} (hd : d.all isDigitChar = true) :
    jsTrim d = d := by
  apply jsTrim_eq_self
  intro c hc
  have := digit_char_facts ((List.all_eq_true.mp hd) c hc)
  exact isJsWsChar_false_printable (by omega) (by omega)

theorem jsNumber_digits {d : Str} (hne : d ≠ []) (hd : d.all isDigitChar = true) :
    jsNumberOfString d = finOrInf (mkRat (Int.ofNat (digitsVal d)) 1) := by
  rw [jsNumberOfString]
  rw [jsTrim_digits hd]
  rcases d with _ | ⟨c, r⟩
  · exact absurd rfl hne
  · have hcd : isDigitChar c = true := by
      simp [List.all_cons] at hd
      exact hd.1
    have hcp : ¬(c = '+') := by
      rintro rfl; revert hcd; decide
    have hcm : ¬(c = '-') := by
      rintro rfl; revert hcd; decide
    simp only [hcp, hcm, if_false]
    rw [parseNonDecimalInt_digits (by simpa using hd)]
    rw [parseSignedTail]
    have hinf : ¬(c :: r = ("Infinity".data)) := by
      intro he
      have hci : c = 'I' := by
        have := congrArg (fun l => l.headD ' ') he
        simpa using this
      subst hci
      exact absurd hcd (by decide)
    rw [if_neg hinf]
    have hud : parseUnsignedDecimal (c :: r) = some (decValue (c :: r) [] 0) := by
      rw [parseUnsignedDecimal, decDigits_all (by simpa using hd)]
      dsimp only
      rw [if_neg (by simp)]
      rfl
    rw [hud]
    have hdv : decValue (c :: r) [] 0 =
        mkRat (Int.ofNat (digitsVal (c :: r))) 1 := by
      simp [decValue, digitsVal]
    rw [hdv]
    simp

theorem nat255_lt_bound : (255 : ℕ) < 2 ^ 1024 - 2 ^ 970 := by
  have h970 : (2:ℕ) ^ 970 < 2 ^ 1023 :=
    Nat.pow_lt_pow_right (by norm_num) (by norm_num)
  have h255 : (255:ℕ) < 2 ^ 1023 := by
    calc (255:ℕ) < 2 ^ 8 := by norm_num
    _ ≤ 2 ^ 1023 := Nat.pow_le_pow_right (by norm_num) (by norm_num)
  have hsum : (2:ℕ) ^ 1024 = 2 ^ 1023 * 2 := by
    rw [show (1024:ℕ) = 1023 + 1 from rfl, pow_succ]
  omega

theorem mkRat_natCast (n : ℕ) : mkRat (Int.ofNat n) 1 = (n : ℚ) := by
  rw [Rat.mkRat_one]
  simp

theorem dblOverflow_cast : DBL_OVERFLOW = ((2 ^ 1024 - 2 ^ 970 : ℕ) : ℚ) := by
  rw [DBL_OVERFLOW, mkRat_natCast]
  rfl

theorem dblOverflow_not_le {n : ℕ} (h : n ≤ 255) :
    ¬(DBL_OVERFLOW ≤ mkRat (Int.ofNat n) 1) := by
  rw [dblOverflow_cast, mkRat_natCast]
  intro hle
  have hnat : (2 ^ 1024 - 2 ^ 970 : ℕ) ≤ n := by exact_mod_cast hle
  have := nat255_lt_bound
  omega

theorem not_le_neg_dblOverflow {n : ℕ} :
    ¬(mkRat (Int.ofNat n) 1 ≤ Rat.neg DBL_OVERFLOW) := by
  intro hle
  have hle2 : ((n:ℕ) : ℚ) ≤ -DBL_OVERFLOW := by
    rw [← mkRat_natCast]
    exact hle
  have hD : (0:ℚ) < DBL_OVERFLOW := by
    rw [dblOverflow_cast]
    have h1 : (0:ℕ) < 2 ^ 1024 - 2 ^ 970 := by
      have := nat255_lt_bound
      omega
    exact_mod_cast h1
  have hn : (0:ℚ) ≤ ((n:ℕ) : ℚ) := by positivity
  linarith

theorem finOrInf_natCast_small {n : ℕ} (h : n ≤ 255) :
    finOrInf (mkRat (Int.ofNat n) 1) = .fin (mkRat (Int.ofNat n) 1) := by
  rw [finOrInf, if_neg (dblOverflow_not_le h), if_neg not_le_neg_dblOverflow]

theorem jsLe_checks_small {n : ℕ} (h : n ≤ 255) :
    jsLeNum (.fin 0) (finOrInf (mkRat (Int.ofNat n) 1)) = true ∧
    jsLeNum (finOrInf (mkRat (Int.ofNat n) 1)) (.fin 255) = true := by
  rw [finOrInf_natCast_small h]
  constructor
  · simp only [jsLeNum, decide_eq_true_eq]
    rw [mkRat_natCast]
    positivity
  · simp only [jsLeNum, decide_eq_true_eq]
    rw [mkRat_natCast]
    exact_mod_cast h

theorem jsLe255_false {n : ℕ} (h : 255 < n) :
    jsLeNum (finOrInf (mkRat (Int.ofNat n) 1)) (.fin 255) = false := by
  rw [finOrInf]
  split
  · rfl
  · split
    · exact absurd (by assumption) not_le_neg_dblOverflow
    · simp only [jsLeNum, decide_eq_false_iff_not]
      rw [mkRat_natCast]
      intro hle
      have : n ≤ 255 := by exact_mod_cast hle
      omega

/-- C9: on strings made of digits and dots, the classifier returns IPv4
exactly for well-formed dotted quads: 4 dot-separated all-digit parts with
values ≤ 255 give IPv4, and a wrong part count or an octet above 255 gives
no family at all. -/
theorem C9_ipv4_classification (s : Str) :
    ((splitOnChar '.' s).length = 4 →
     (∀ part ∈ splitOnChar '.' s,
        part ≠ [] ∧ part.all isDigitChar = true ∧ digitsVal part ≤ 255) →
     detectIpFamily (some s) = some IpFamily.v4) ∧
    (s.all (fun c => isDigitChar c || c = '.') = true →
     ((splitOnChar '.' s).length ≠ 4 ∨
      ∃ part ∈ splitOnChar '.' s,
        part.all isDigitChar = true ∧ 255 < digitsVal part) →
     detectIpFamily (some s) = none) := by
  constructor
  · intro hlen hparts
    have hchar : ∀ c ∈ s, isJsWsChar c = false := by
      intro c hc
      rcases mem_splitOnChar '.' hc with rfl | ⟨part, hpmem, hcmem⟩
      · decide
      · have hdig := (List.all_eq_true.mp (hparts part hpmem).2.1) c hcmem
        have := digit_char_facts hdig
        exact isJsWsChar_false_printable (by omega) (by omega)
    have htrim := jsTrim_eq_self s hchar
    have hne : s ≠ [] := by
      intro he
      rw [he] at hlen
      simp [splitOnChar] at hlen
    have hv4 : isValidIPv4 s = true := by
      rw [isValidIPv4]
      refine (Bool.and_eq_true _ _).mpr ⟨by simp [hlen], ?_⟩
      rw [List.all_eq_true]
      intro part hpart
      obtain ⟨hne2, hdig, hval⟩ := hparts part hpart
      have hnum := jsNumber_digits hne2 hdig
      have hle := jsLe_checks_small hval
      refine (Bool.and_eq_true _ _).mpr
        ⟨(Bool.and_eq_true _ _).mpr ⟨?_, hdig⟩, (Bool.and_eq_true _ _).mpr ⟨?_, ?_⟩⟩
      · simp [List.isEmpty_iff, hne2]
      · rw [hnum]; exact hle.1
      · rw [hnum]; exact hle.2
    rw [detectIpFamily]
    simp [List.isEmpty_iff, hne, htrim, hv4]
  · intro hall hbad
    by_cases hnil : s = []
    · subst hnil
      rfl
    · have hchar : ∀ c ∈ s, isJsWsChar c = false := by
        intro c hc
        have hcc := (List.all_eq_true.mp hall) c hc
        rcases (Bool.or_eq_true _ _).mp hcc with hdig | hdot
        · have := digit_char_facts hdig
          exact isJsWsChar_false_printable (by omega) (by omega)
        · have hce : c = '.' := of_decide_eq_true hdot
          subst hce
          decide
      have htrim := jsTrim_eq_self s hchar
      have hv4 : isValidIPv4 s = false := by
        rcases hbad with hlen | ⟨part, hpmem, hdig, hval⟩
        · rw [isValidIPv4]
          simp [hlen]
        · rw [isValidIPv4]
          have hne2 : part ≠ [] := by
            intro he
            rw [he] at hval
            simp [digitsVal] at hval
          have hfalse : jsLeNum (jsNumberOfString part) (.fin 255) = false := by
            rw [jsNumber_digits hne2 hdig]
            exact jsLe255_false hval
          by_contra hcontra
          rw [Bool.not_eq_false] at hcontra
          have hall2 := ((Bool.and_eq_true _ _).mp hcontra).2
          have hpartchk := (List.all_eq_true.mp hall2) part hpmem
          have h2 := ((Bool.and_eq_true _ _).mp hpartchk).2
          have h3 := ((Bool.and_eq_true _ _).mp h2).2
          rw [hfalse] at h3
          simp at h3
      have hv6 : isValidIPv6 s = false := by
        rw [isValidIPv6]
        have hcont : s.contains ':' = false := by
          by_contra hcc
          rw [Bool.not_eq_false] at hcc
          have hmem : ':' ∈ s := by simpa using hcc
          have hbadc := (List.all_eq_true.mp hall) ':' hmem
          revert hbadc
          decide
        rw [hcont]
        simp
      rw [detectIpFamily]
      simp [List.isEmpty_iff, hnil, htrim, hv4, hv6]

theorem C9_ipv4_classification_witness :
    detectIpFamily (some ("203.0.113.5".data)) = some IpFamily.v4 :=
  (C9_ipv4_classification _).1 (by decide) (by decide)

theorem splitOnChar_no_sep {sep : Char} {s : Str} (h : ∀ c ∈ s, c ≠ sep) :
    splitOnChar sep s = [s] := by
  induction s with
  | nil => rfl
  | cons c rest ih =>
    rw [splitOnChar]
    rw [ih fun c2 hc2 => h c2 (List.mem_cons_of_mem _ hc2)]
    dsimp only
    rw [if_neg (h c (List.mem_cons_self _ _))]

/-- Modelled from the claim's words, for refutation: one side of the pair per
the claim — null when the side is missing or does not (in the claim's sense,
which calls the lon side of `"52.5,"` null) parse to a finite number. -/
def claimSideParse (o : Option Str) : Option JSNum :=
  match o with
  | none => none
  | some t =>
    let tr := jsTrim t
    if tr.isEmpty then none
    else
      let p := jsNumberOfString tr
      if p.isFinite then some p else none

/-- Modelled from the claim's words, for refutation: split on the FIRST
comma; lat is everything before it and lon everything after it (missing when
there is no comma). -/
def parseLocPairClaim (value : Option Str) : Option JSNum × Option JSNum :=
  match value with
  | none => (none, none)
  | some s =>
    if s.isEmpty then (none, none)
    else
      (claimSideParse (some (s.takeWhile fun c => !(c == ','))),
       claimSideParse
         (if s.contains ',' then
            some ((s.dropWhile fun c => !(c == ',')).tail)
          else none))

/-- C2 counterexample: the code splits on every comma and parses the empty
string to 0, so on `"52.5,"` it returns lon = 0 (the claim says null), and
on `"1,2,3"` it returns lon = 2, the second comma-separated piece, not the
parse of everything after the first comma (which the claim says is null). -/
theorem C2_counterexample :
    parseLocPair (some ("52.5,".data)) =
      (some (.fin (mkRat 105 2)), some (.fin 0)) ∧
    parseLocPairClaim (some ("52.5,".data)) =
      (some (.fin (mkRat 105 2)), none) ∧
    (parseLocPair (some ("52.5,".data))).2 ≠
      (parseLocPairClaim (some ("52.5,".data))).2 ∧
    parseLocPair (some ("1,2,3".data)) = (some (.fin 1), some (.fin 2)) ∧
    parseLocPairClaim (some ("1,2,3".data)) = (some (.fin 1), none) ∧
    (parseLocPair (some ("1,2,3".data))).2 ≠
      (parseLocPairClaim (some ("1,2,3".data))).2 :=
  ⟨by decide, by decide, by decide, by decide, by decide, by decide⟩

/-- C2 (amended): `parseLocPair` splits on every comma and uses the first
two components: lat is the first component and lon the second, each trimmed
and converted by JS `Number` semantics (so the empty string converts to 0)
and kept only when finite; lon is null when the string has no comma.  In
particular `"52.5,"` yields `(52.5, 0)` and `"1,2,3"` yields `(1, 2)`. -/
theorem C2_parseLocPair_amended :
    (∀ s : Str, s ≠ [] →
      parseLocPair (some s) =
        (parseCoordinate (((splitOnChar ',' s).get? 0).map
           fun t => Sum.inr (jsTrim t)),
         parseCoordinate (((splitOnChar ',' s).get? 1).map
           fun t => Sum.inr (jsTrim t)))) ∧
    (∀ s : Str, (∀ c ∈ s, c ≠ ',') → (parseLocPair (some s)).2 = none) ∧
    parseLocPair (some ("52.5,".data)) =
      (some (.fin (mkRat 105 2)), some (.fin 0)) ∧
    parseLocPair (some ("1,2,3".data)) = (some (.fin 1), some (.fin 2)) := by
  refine ⟨?_, ?_, by decide, by decide⟩
  · intro s hs
    have hne : s.isEmpty = false := by simp [List.isEmpty_iff, hs]
    rw [parseLocPair]
    rw [hne]
    rfl
  · intro s hs
    by_cases hnil : s = []
    · subst hnil
      rfl
    · have hne : s.isEmpty = false := by simp [List.isEmpty_iff, hnil]
      rw [parseLocPair]
      rw [hne]
      dsimp only
      rw [splitOnChar_no_sep hs]
      rfl

theorem C2_parseLocPair_amended_witness :
    parseLocPair (some ("7".data)) =
      (parseCoordinate (((splitOnChar ',' ("7".data)).get? 0).map
         fun t => Sum.inr (jsTrim t)),
       parseCoordinate (((splitOnChar ',' ("7".data)).get? 1).map
         fun t => Sum.inr (jsTrim t))) :=
  C2_parseLocPair_amended.1 ("7".data) (by decide)
